import Mathlib

/-!
Verification of the channel router core (src/common/channel_router.cc) and the
settings helper (src/common/settings.h) of nextpnr-xilinx, via a shallow
embedding.  C++ machine integers are modelled as Int, C++ floats and doubles as
rationals, fallible operations (vector::at, map::at, NPNR_ASSERT) as Except.
-/



/-- Modelled from the spec: ChannelNode is the value triple (x, y, type) of C++
ints (the struct lives in the absent channel_router.h; equality is structural
per the operators defined at the top of channel_router.cc). -/
structure ChannelNode where
  x : Int
  y : Int
  type : Int
  deriving DecidableEq, Repr

/-- Modelled from the spec: a direction of a channel type. -/
inductive Dir where
  | east
  | west
  | north
  | south
  deriving DecidableEq, Repr

/-- Modelled from the spec: a downhill template (src_along, dst_type, dst_along)
of a channel type (struct in the absent channel_router.h). -/
structure ChannelDownhill where
  src_along : Int
  dst_type : Int
  dst_along : Int
  deriving DecidableEq, Repr

/-- Modelled from the spec: a channel type with a direction, a length, a
per-node cost (a float, modelled as a rational), an integer width, and the
downhill templates (struct in the absent channel_router.h). -/
structure Channel where
  dir : Dir
  length : Int
  cost : ℚ
  width : Int
  downhill : List ChannelDownhill
  deriving DecidableEq, Repr

/-- vector::at with a C++ int index: a negative index converts to a huge
size_t and throws, an index at or past the size throws, otherwise the element
is returned. -/
def atV {α : Type} (l : List α) (i : Int) : Option α :=
  if 0 ≤ i then l[i.toNat]? else none

/-- The materialized adjacency of one (x, y, type) slot: the downhill and
uphill neighbor lists populated by setup_nodes.  The remaining PerNodeData
fields are not touched by the builder. -/
structure AdjNode where
  downhill : List ChannelNode
  uphill : List ChannelNode
  deriving DecidableEq, Repr

/-- How setup_nodes can die: a vector::at past the end (atRange) or a failed
NPNR_ASSERT (assertFail).  The code has no GraphInconsistent error of any
kind. -/
inductive SetupErr where
  | atRange
  | assertFail
  deriving DecidableEq, Repr

/-- The switch on a channel direction in setup_nodes: displace (x, y) opposite
to the direction of travel by the along offset. -/
def displace (d : Dir) (x y along : Int) : Int × Int :=
  match d with
  | Dir.east => (x - along, y)
  | Dir.west => (x + along, y)
  | Dir.north => (x, y - along)
  | Dir.south => (x, y + along)

/-- Apply f to the slot of type t at flat index idx of the node grid (both
indices already range-checked by the caller). -/
def updAdj (st : List (List AdjNode)) (idx t : Nat) (f : AdjNode → AdjNode) :
    List (List AdjNode) :=
  match st[idx]? with
  | none => st
  | some row =>
    match row[t]? with
    | none => st
    | some a => st.set idx (row.set t (f a))

/-- The body of the innermost setup_nodes loop for one grid cell (x, y), one
channel type index t and one downhill template dh, mirroring the source order:
assert src_along within the source channel length, displace to the start cell,
look up the destination channel type (vector::at), assert dst_along within its
length, displace to the end cell, then look up both flat node slots
(vector::at with the flattened index y * width + x, where a negative int index
converts to a huge size_t and throws) and append the two adjacency entries.
No check that the computed coordinates lie inside the grid is made: only the
flattened index is range-checked, so an out-of-grid coordinate whose flattened
index happens to be in range silently aliases into a different cell. -/
def processDownhill (types : List Channel) (width height : Int)
    (x y : Int) (t : Nat) (dh : ChannelDownhill) (st : List (List AdjNode)) :
    Except SetupErr (List (List AdjNode)) :=
  match types[t]? with
  | none => Except.error SetupErr.atRange
  | some c =>
    if dh.src_along ≤ c.length then
      let s := displace c.dir x y dh.src_along
      match atV types dh.dst_type with
      | none => Except.error SetupErr.atRange
      | some d =>
        if dh.dst_along ≤ d.length then
          let e := displace d.dir x y dh.dst_along
          let srcIdx : Int := s.2 * width + s.1
          let dstIdx : Int := e.2 * width + e.1
          if 0 ≤ srcIdx ∧ srcIdx < width * height then
            if 0 ≤ dstIdx ∧ dstIdx < width * height then
              let st1 := updAdj st srcIdx.toNat t
                (fun a => { a with downhill := a.downhill ++ [⟨e.1, e.2, dh.dst_type⟩] })
              Except.ok (updAdj st1 dstIdx.toNat dh.dst_type.toNat
                (fun a => { a with uphill := a.uphill ++ [⟨s.1, s.2, (t : Int)⟩] }))
            else Except.error SetupErr.atRange
          else Except.error SetupErr.atRange
        else Except.error SetupErr.assertFail
    else Except.error SetupErr.assertFail

/-- The checks processDownhill performs, as one boolean: defined for the
failure characterization theorem.  Note the grid-membership of the displaced
coordinates is NOT among them, only the flattened index range. -/
def itemCheck (types : List Channel) (width height : Int)
    (x y : Int) (t : Nat) (dh : ChannelDownhill) : Bool :=
  match types[t]? with
  | none => false
  | some c =>
    decide (dh.src_along ≤ c.length) &&
    (match atV types dh.dst_type with
     | none => false
     | some d =>
       decide (dh.dst_along ≤ d.length) &&
       (let s := displace c.dir x y dh.src_along
        let e := displace d.dir x y dh.dst_along
        decide (0 ≤ s.2 * width + s.1 ∧ s.2 * width + s.1 < width * height) &&
        decide (0 ≤ e.2 * width + e.1 ∧ e.2 * width + e.1 < width * height)))

/-- The nested setup_nodes loops flattened into one item list: y outermost,
then x, then the channel type index, then the downhill templates of that type. -/
def setupItems (types : List Channel) (width height : Int) :
    List (Int × Int × Nat × ChannelDownhill) :=
  (List.range height.toNat).flatMap (fun y =>
    (List.range width.toNat).flatMap (fun x =>
      types.enum.flatMap (fun tc =>
        tc.2.downhill.map (fun dh => ((x : Int), (y : Int), tc.1, dh)))))

/-- Run the setup items in order.  A thrown C++ exception leaves the already
performed in-place appends in the nodes member, so the state at the moment of
failure is returned alongside the error. -/
def runItems (types : List Channel) (width height : Int) :
    List (Int × Int × Nat × ChannelDownhill) → List (List AdjNode) →
    (List (List AdjNode)) × Option SetupErr
  | [], st => (st, none)
  | item :: rest, st =>
    match processDownhill types width height item.1 item.2.1 item.2.2.1 item.2.2.2 st with
    | Except.error e => (st, some e)
    | Except.ok st2 => runItems types width height rest st2

/-- setup_nodes from channel_router.cc: size the grid to width * height slots
of one AdjNode per channel type, then run every (cell, type, template) item. -/
def setup_nodes (types : List Channel) (width height : Int) :
    (List (List AdjNode)) × Option SetupErr :=
  runItems types width height (setupItems types width height)
    (List.replicate (width * height).toNat (List.replicate types.length ⟨[], []⟩))

def cxTypes : List Channel := [⟨Dir.west, 1, 1, 1, [⟨1, 0, 0⟩]⟩]

/-- NodeScore from channel_router.cc: cost, togo_cost (floats, modelled as
rationals) and a delay field that the comparator never reads. -/
structure NodeScore where
  cost : ℚ
  togo_cost : ℚ
  delay : Int
  deriving DecidableEq, Repr

/-- QueuedNode from channel_router.cc: the node, its predecessor, the score and
the pseudo-random tie-break tag. -/
structure QueuedNode where
  node : ChannelNode
  prev : ChannelNode
  score : NodeScore
  randtag : Int
  deriving DecidableEq, Repr

/-- QueuedNode::Greater from channel_router.cc: on equal totals it compares
randtag with the greater-than operator, otherwise it compares the totals with
greater-than. -/
def queuedGreater (lhs rhs : QueuedNode) : Bool :=
  if lhs.score.cost + lhs.score.togo_cost = rhs.score.cost + rhs.score.togo_cost
  then decide (lhs.randtag > rhs.randtag)
  else decide (lhs.score.cost + lhs.score.togo_cost > rhs.score.cost + rhs.score.togo_cost)

/-- Modelled from the spec: the arc-search priority queue itself is absent from
src/; per the spec the search is best-first, popping the entry of lowest total
score first, which is exactly what a std priority_queue instantiated with the
Greater comparator does: the popped entry is the maximum of the strict weak
order given by the comparator.  In a queue holding entries a and b, a pops
before b iff the comparator orders b strictly before a. -/
def popsBefore (a b : QueuedNode) : Bool := queuedGreater b a

def qTagBig : QueuedNode := ⟨⟨0, 0, 0⟩, ⟨0, 0, 0⟩, ⟨1, 0, 0⟩, 5⟩

def qTagSmall : QueuedNode := ⟨⟨0, 0, 0⟩, ⟨0, 0, 0⟩, ⟨1, 0, 0⟩, 3⟩

/-- Modelled from the spec: the slice of a netlist net that the udata
assignment of setup_nets reads — a canonical name (the input list is assumed
already in canonical sorted order, the sorted utility being absent from src/)
and whether the net has a driver cell. -/
structure NetInput where
  name : String
  hasDriver : Bool
  deriving DecidableEq, Repr

/-- The udata assignment and nets_by_udata population of setup_nets
(channel_router.cc 172-235): the counter i is assigned to ni.udata and slot i
of nets_by_udata is overwritten at the top of the loop body; the increment of i
sits at the bottom of the loop body, so the continue taken for a driverless net
skips it.  Returns the per-net (name, udata) assignments in input order and the
final nets_by_udata vector. -/
def setup_nets_ids (netsIn : List NetInput) : List (String × Nat) × List (Option String) :=
  let init : List (Option String) := List.replicate netsIn.length none
  let res := netsIn.foldl
    (fun (acc : List (String × Nat) × List (Option String) × Nat) ni =>
      let i := acc.2.2
      ((ni.name, i) :: acc.1,
       acc.2.1.set i (some ni.name),
       if ni.hasDriver then i + 1 else i))
    ([], init, 0)
  (res.1.reverse, res.2.1)

/-- Association-list lookup over the settings map (the std map keyed by
interned name). -/
def lookupStr (name : String) : List (String × String) → Option String
  | [] => none
  | (k, v) :: rest => if k = name then some v else lookupStr name rest

/-- Settings::get from settings.h: the settings map is modelled as an
association list from name to stored string, boost lexical_cast as the parse
parameter (none models bad_lexical_cast), std to_string as the toStr
parameter.  When the name is present the stored string is parsed and returned
and the map is untouched; when absent the default is stringified, inserted and
returned; a failed parse is caught, logged and the default returned with the
map untouched. -/
def settingsGet {T : Type} (parse : String → Option T) (toStr : T → String)
    (settings : List (String × String)) (name : String) (defaultValue : T) :
    T × List (String × String) :=
  match lookupStr name settings with
  | some s =>
    match parse s with
    | some v => (v, settings)
    | none => (defaultValue, settings)
  | none => (defaultValue, (name, toStr defaultValue) :: settings)

/-- One bound_nets entry: the per-net use count (arcs of the net through the
node) and the uphill node through which the net enters. -/
abbrev BoundEntry := Int × ChannelNode

/-- The bound_nets member of PerNodeData: a flat_map from net udata to entry,
modelled as an association list with distinct keys.  The flat_map keeps its
entries sorted by key; no claim depends on iteration order, so insertion
position is immaterial and new entries are consed at the front. -/
abbrev BoundNets := List (Int × BoundEntry)

/-- flat_map lookup by net id. -/
def lookupBN (net : Int) : BoundNets → Option BoundEntry
  | [] => none
  | (k, e) :: rest => if k = net then some e else lookupBN net rest

/-- Overwrite the entry of a key in place (position preserved). -/
def replaceBN (net : Int) (v : BoundEntry) : BoundNets → BoundNets
  | [] => []
  | p :: rest =>
    if p.1 = net then (net, v) :: replaceBN net v rest
    else p :: replaceBN net v rest

/-- flat_map erase by key. -/
def eraseBN (net : Int) : BoundNets → BoundNets
  | [] => []
  | p :: rest =>
    if p.1 = net then eraseBN net rest
    else p :: eraseBN net rest

/-- The per-node mutable state read by the cost and binding functions:
bound_nets and the historical congestion cost (a float, modelled as a
rational).  The neighbor lists, unavailable, reserved_net and the visit
scratch of the C++ struct are not read by any function under proof and are
omitted. -/
structure PerNodeData where
  bound_nets : BoundNets
  hist_cong_cost : ℚ
  deriving DecidableEq, Repr

/-- PerArcData: the arc sink and its routed flag (the bounding box is not read
by any function under proof and is omitted). -/
structure PerArcData where
  sink_node : ChannelNode
  routed : Bool
  deriving DecidableEq, Repr

/-- PerNetData: driver node, arcs, centroid and half-perimeter wirelength (the
bounding box and timing counter are not read by any function under proof and
are omitted). -/
structure PerNetData where
  src_node : ChannelNode
  arcs : List PerArcData
  cx : Int
  cy : Int
  hpwl : Int
  deriving DecidableEq, Repr

/-- Modelled from the spec: the ChannelRouterCfg fields read by the cost
functions (the struct lives in the absent channel_router.h; the togo and bias
weights are floats per the spec, modelled as rationals). -/
structure ChannelRouterCfg where
  togo_cost_dx : ℚ
  togo_cost_dy : ℚ
  togo_cost_adder : ℚ
  bias_cost_factor : ℚ
  deriving DecidableEq, Repr

/-- Modelled from the spec: the slice of the nextpnr NetInfo that the routing
functions read — the dense id udata and the number of users. -/
structure NetModel where
  udata : Int
  usersSize : Nat
  deriving DecidableEq, Repr

/-- The ChannelRouterState fields read by the functions under proof.  The
node grid (a flat vector of vectors in C++) is modelled as a total function
from ChannelNode to PerNodeData: node_data asserts its indices in bounds
before any access, and within bounds the flattened index is injective, so the
function view is faithful. -/
structure RouterData where
  cfg : ChannelRouterCfg
  width : Int
  height : Int
  channel_types : List Channel
  curr_cong_weight : ℚ
  nets : List PerNetData
  grid : ChannelNode → PerNodeData

/-- The bounds checks of node_data: the two NPNR_ASSERTs on x and y, and the
vector::at on the inner per-type vector (of size channel_types.size()). -/
def inBoundsB (r : RouterData) (n : ChannelNode) : Bool :=
  decide (0 ≤ n.x ∧ n.x < r.width ∧ 0 ≤ n.y ∧ n.y < r.height ∧
          0 ≤ n.type ∧ n.type < (r.channel_types.length : Int))

/-- node_data from channel_router.cc: assert the coordinates in range, then
return the per-node slot. -/
def RouterData.node_data (r : RouterData) (n : ChannelNode) : Except Unit PerNodeData :=
  if inBoundsB r n then Except.ok (r.grid n) else Except.error ()

/-- Replace the bound_nets of one node slot in the grid. -/
def setBN (g : ChannelNode → PerNodeData) (node : ChannelNode) (bn : BoundNets) :
    ChannelNode → PerNodeData :=
  fun m => if m = node then { g node with bound_nets := bn } else g m

/-- The map mutation of bind_node_internal: operator[] default-constructs a
(0, ChannelNode()) entry for an absent key, the count is pre-incremented, and
on count 1 the uphill is recorded while on any later count the stored uphill
must equal the passed one (NPNR_ASSERT).  The absent-key case is modelled by
directly inserting the resulting (1, uphill) entry. -/
def bindBN (net : Int) (uphill : ChannelNode) (m : BoundNets) : Except Unit BoundNets :=
  match lookupBN net m with
  | none => Except.ok ((net, (1, uphill)) :: m)
  | some e =>
    if e.1 + 1 = 1 then Except.ok (replaceBN net (e.1 + 1, uphill) m)
    else if e.2 = uphill then Except.ok (replaceBN net (e.1 + 1, e.2) m)
    else Except.error ()

/-- The map mutation of unbind_node_internal: bound_nets.at(net) (throws when
absent), decrement, and erase the entry when the count reaches zero. -/
def unbindBN (net : Int) (m : BoundNets) : Except Unit BoundNets :=
  match lookupBN net m with
  | none => Except.error ()
  | some e =>
    if e.1 - 1 = 0 then Except.ok (eraseBN net m)
    else Except.ok (replaceBN net (e.1 - 1, e.2) m)

/-- bind_node_internal from channel_router.cc (lines 287-296). -/
def bind_node_internal (r : RouterData) (net : Int) (node uphill : ChannelNode) :
    Except Unit RouterData := do
  let wd ← r.node_data node
  let bn ← bindBN net uphill wd.bound_nets
  Except.ok { r with grid := setBN r.grid node bn }

/-- unbind_node_internal from channel_router.cc (lines 298-305). -/
def unbind_node_internal (r : RouterData) (net : Int) (node : ChannelNode) :
    Except Unit RouterData := do
  let wd ← r.node_data node
  let bn ← unbindBN net wd.bound_nets
  Except.ok { r with grid := setBN r.grid node bn }

/-- The while loop of ripup_arc: walk from the sink toward the driver, at each
node reading the stored uphill before unbinding, and stop as soon as the
cursor EQUALS the driver — the driver itself is never unbound.  The C++ loop
carries no fuel; the explicit fuel only bounds the number of iterations the
model will take and is exhausted only on states where the C++ loop would not
have reached the driver within that many steps. -/
def ripupWalk (net : Int) (src : ChannelNode) :
    Nat → ChannelNode → RouterData → Except Unit RouterData
  | 0, _, _ => Except.error ()
  | Nat.succ fuel, cursor, r =>
    if cursor = src then Except.ok r
    else do
      let wd ← r.node_data cursor
      match lookupBN net wd.bound_nets with
      | none => Except.error ()
      | some e => do
        let r2 ← unbind_node_internal r net cursor
        ripupWalk net src fuel e.2 r2

/-- List modification at an index (identity when out of range), used for the
in-place writes to the nets vector. -/
def listModify {α : Type} (l : List α) (i : Nat) (f : α → α) : List α :=
  match l, i with
  | [], _ => []
  | a :: rest, 0 => f a :: rest
  | a :: rest, Nat.succ j => a :: listModify rest j f

/-- Clear the routed flag of one arc record (the write ad.routed = false at
the end of ripup_arc). -/
def setRoutedFalse (r : RouterData) (netIdx user : Nat) : RouterData :=
  let clearArc : PerArcData → PerArcData := fun ad => { ad with routed := false }
  let clearNet : PerNetData → PerNetData :=
    fun nd => { nd with arcs := listModify nd.arcs user clearArc }
  { r with nets := listModify r.nets netIdx clearNet }

/-- ripup_arc from channel_router.cc (lines 307-321): look up the net record
(nets.at with the int udata) and the arc record, return unchanged when the
arc is not routed, otherwise walk the stored uphill chain from the sink to —
but not including — the driver, unbinding each node, then clear routed. -/
def ripup_arc (r : RouterData) (fuel : Nat) (net : Int) (user : Nat) :
    Except Unit RouterData :=
  match (if 0 ≤ net then r.nets[net.toNat]? else none) with
  | none => Except.error ()
  | some nd =>
    match nd.arcs[user]? with
    | none => Except.error ()
    | some ad =>
      if ad.routed = false then Except.ok r
      else do
        let r2 ← ripupWalk net nd.src_node fuel ad.sink_node r
        Except.ok (setRoutedFalse r2 net.toNat user)

/-- present_node_cost from channel_router.cc: over_capacity starts at
bound_nets.size(), loses width - 1, loses one more when the querying net is
itself bound here, and the cost is 1 when not over capacity and
1 + over * curr_cong_weight otherwise.  The channel_types.at lookup models
the vector::at on the type index. -/
def present_node_cost (r : RouterData) (w : PerNodeData) (channel_type : Int)
    (net_uid : Int) : Except Unit ℚ :=
  match atV r.channel_types channel_type with
  | none => Except.error ()
  | some c =>
    let over1 : Int := (w.bound_nets.length : Int) - (c.width - 1)
    let over2 : Int := if (lookupBN net_uid w.bound_nets).isSome then over1 - 1 else over1
    if over2 ≤ 0 then Except.ok 1
    else Except.ok (1 + (over2 : ℚ) * r.curr_cong_weight)

/-- score_node_for_arc from channel_router.cc (the user argument is accepted
and unread, as in the source): base cost from the channel type, present cost,
historical cost, the bias pulling toward the net centroid, the self-use
discount, all combined as
base * hist * present / (1 + source_uses) + bias. -/
def score_node_for_arc (r : RouterData) (net : NetModel) (user : Nat)
    (node : ChannelNode) : Except Unit ℚ := do
  let wd ← r.node_data node
  let nd ← (match (if 0 ≤ net.udata then r.nets[net.udata.toNat]? else none) with
    | some nd => Except.ok nd
    | none => Except.error ())
  let base_cost ← (match atV r.channel_types node.type with
    | some c => Except.ok c.cost
    | none => Except.error ())
  let present_cost ← present_node_cost r wd node.type net.udata
  let hist_cost := wd.hist_cong_cost
  let source_uses : Int := match lookupBN net.udata wd.bound_nets with
    | some e => e.1
    | none => 0
  let bias_cost : ℚ := r.cfg.bias_cost_factor * (base_cost / (net.usersSize : ℚ)) *
    ((((node.x - nd.cx).natAbs + (node.y - nd.cy).natAbs : Nat) : ℚ) / (nd.hpwl : ℚ))
  Except.ok (base_cost * hist_cost * present_cost / (1 + (source_uses : ℚ)) + bias_cost)

/-- Truncation of a float value toward zero on conversion to a C++ int,
modelled on rationals (Int.tdiv truncates toward zero). -/
def ratTrunc (q : ℚ) : Int := Int.tdiv q.num (q.den : Int)

/-- get_togo_cost from channel_router.cc: the heuristic numerator
cfg.togo_cost_dx * |dx| + cfg.togo_cost_dy * |dy| + cfg.togo_cost_adder is
stored into an INT local (truncating), and the division by 1 + source_uses is
C++ integer division (truncating toward zero), the quotient then converted
back to float on return. -/
def get_togo_cost (r : RouterData) (net : NetModel) (user : Nat)
    (curr sink : ChannelNode) : Except Unit ℚ := do
  let wd ← r.node_data curr
  let source_uses : Int := match lookupBN net.udata wd.bound_nets with
    | some e => e.1
    | none => 0
  let base_cost : Int := ratTrunc (r.cfg.togo_cost_dx * ((curr.x - sink.x).natAbs : ℚ) +
    r.cfg.togo_cost_dy * ((curr.y - sink.y).natAbs : ℚ) + r.cfg.togo_cost_adder)
  Except.ok ((Int.tdiv base_cost (1 + source_uses) : Int) : ℚ)

/-- The claim C5 formula, written from the words of the spec: the same
numerator divided by 1 + source_uses in exact real (rational) arithmetic with
no intermediate rounding or truncation. -/
def togoSpecReal (cfg : ChannelRouterCfg) (curr sink : ChannelNode)
    (source_uses : Int) : ℚ :=
  (cfg.togo_cost_dx * ((curr.x - sink.x).natAbs : ℚ) +
   cfg.togo_cost_dy * ((curr.y - sink.y).natAbs : ℚ) + cfg.togo_cost_adder) /
  (1 + (source_uses : ℚ))

/-- Distinctness of the keys of a bound_nets list — the flat_map invariant. -/
def keysNodup (m : BoundNets) : Prop := (m.map Prod.fst).Nodup

instance keysNodupDec (m : BoundNets) : Decidable (keysNodup m) :=
  inferInstanceAs (Decidable (m.map Prod.fst).Nodup)

def nSrc : ChannelNode := ⟨0, 0, 0⟩

def nSink : ChannelNode := ⟨1, 0, 0⟩

/-- One eastward channel type: length 1, cost 1, width 1, no downhill. -/
def exChanEast : Channel := ⟨Dir.east, 1, 1, 1, []⟩

def exCfg : ChannelRouterCfg := ⟨1, 1, 0, 1⟩

/-- A 2 x 1 grid in which net 0 is routed over nSrc -> nSink: both nodes hold
one use of net 0, each recording nSrc as the uphill (the driver with itself
as the sentinel, per the path binding described by the spec). -/
def exGrid : ChannelNode → PerNodeData := fun n =>
  if n = nSink then ⟨[(0, (1, nSrc))], 1⟩
  else if n = nSrc then ⟨[(0, (1, nSrc))], 1⟩
  else ⟨[], 1⟩

def exNd : PerNetData := ⟨nSrc, [⟨nSink, true⟩], 0, 0, 1⟩

def exR : RouterData := ⟨exCfg, 2, 1, [exChanEast], 1, [exNd], exGrid⟩

/-- The chain the ripup_arc while loop walks, read off the INITIAL state:
starting at the cursor, the listed nodes are visited in order, each distinct
from the driver, in bounds, holding an entry for the net whose stored uphill
is the next node, with the last stored uphill equal to the driver. -/
def chainFromB (r : RouterData) (net : Int) (src : ChannelNode) :
    ChannelNode → List ChannelNode → Bool
  | cursor, [] => decide (cursor = src)
  | cursor, p :: rest =>
    decide (cursor = p) && decide (¬ p = src) && inBoundsB r p &&
    (match lookupBN net ((r.grid p).bound_nets) with
     | none => false
     | some e => chainFromB r net src e.2 rest)

/-- The effect of one unbind on the entry of the net: a decrement, with the
entry erased when the count reaches zero. -/
def decEntry : Option BoundEntry → Option BoundEntry
  | none => none
  | some e => if e.1 - 1 = 0 then none else some (e.1 - 1, e.2)

/-- The grid after one unbind of the net at node p holding entry e: the
bound_nets of p lose one use (erased at zero), all other slots untouched. -/
def unbindGrid (r : RouterData) (net : Int) (p : ChannelNode) (e : BoundEntry) :
    ChannelNode → PerNodeData :=
  setBN r.grid p
    (if e.1 - 1 = 0 then eraseBN net ((r.grid p).bound_nets)
     else replaceBN net (e.1 - 1, e.2) ((r.grid p).bound_nets))

def exAd : PerArcData := ⟨nSink, true⟩

theorem except_isOk_ok {ε α : Type} (a : α) : (Except.ok a : Except ε α).isOk = true := rfl

theorem except_isOk_error {ε α : Type} (e : ε) : (Except.error e : Except ε α).isOk = false := rfl

theorem processDownhill_isOk (types : List Channel) (width height : Int)
    (x y : Int) (t : Nat) (dh : ChannelDownhill) (st : List (List AdjNode)) :
    (processDownhill types width height x y t dh st).isOk
      = itemCheck types width height x y t dh := by
  unfold processDownhill itemCheck
  cases types[t]? with
  | none => rfl
  | some c =>
    by_cases h1 : dh.src_along ≤ c.length
    · simp only [if_pos h1, decide_eq_true h1, Bool.true_and]
      cases atV types dh.dst_type with
      | none => rfl
      | some d =>
        by_cases h2 : dh.dst_along ≤ d.length
        · simp only [if_pos h2, decide_eq_true h2, Bool.true_and]
          by_cases h3 : 0 ≤ (displace c.dir x y dh.src_along).2 * width +
              (displace c.dir x y dh.src_along).1 ∧
              (displace c.dir x y dh.src_along).2 * width +
              (displace c.dir x y dh.src_along).1 < width * height
          · by_cases h4 : 0 ≤ (displace d.dir x y dh.dst_along).2 * width +
                (displace d.dir x y dh.dst_along).1 ∧
                (displace d.dir x y dh.dst_along).2 * width +
                (displace d.dir x y dh.dst_along).1 < width * height
            · simp [h3, h4, except_isOk_ok]
            · simp [h3, h4, except_isOk_error]
          · simp [h3, except_isOk_error]
        · simp [h2, except_isOk_error]
    · simp [h1, except_isOk_error]

theorem runItems_error_iff (types : List Channel) (width height : Int) :
    ∀ (items : List (Int × Int × Nat × ChannelDownhill)) (st : List (List AdjNode)),
      (runItems types width height items st).2.isSome
        = items.any (fun it => ! itemCheck types width height it.1 it.2.1 it.2.2.1 it.2.2.2) := by
  intro items
  induction items with
  | nil => intro st; rfl
  | cons hd tl ih =>
    intro st
    have hk := processDownhill_isOk types width height hd.1 hd.2.1 hd.2.2.1 hd.2.2.2 st
    cases hp : processDownhill types width height hd.1 hd.2.1 hd.2.2.1 hd.2.2.2 st with
    | error e =>
      have hc : itemCheck types width height hd.1 hd.2.1 hd.2.2.1 hd.2.2.2 = false := by
        rw [← hk, hp, except_isOk_error]
      simp [runItems, hp, hc]
    | ok st2 =>
      have hc : itemCheck types width height hd.1 hd.2.1 hd.2.2.1 hd.2.2.2 = true := by
        rw [← hk, hp, except_isOk_ok]
      simp [runItems, hp, hc, ih st2]

/-- C2 (amended): setup_nodes performs no grid-bounds check on the displaced
coordinates and has no GraphInconsistent error: it fails — by vector::at or
NPNR_ASSERT — exactly when some (cell, type, template) item fails one of the
checks the code actually makes: src_along and dst_along within the channel
lengths, dst_type an existing channel type, and the FLATTENED indices
y * width + x of both endpoints within [0, width * height).  A coordinate
outside the grid whose flattened index is in range is not rejected and
silently populates adjacency at an aliased cell (see the counterexample). -/
theorem setup_nodes_error_iff_flat_range (types : List Channel) (width height : Int) :
    (setup_nodes types width height).2.isSome
      = (setupItems types width height).any
          (fun it => ! itemCheck types width height it.1 it.2.1 it.2.2.1 it.2.2.2) :=
  runItems_error_iff types width height (setupItems types width height) _

/-- C2 (counterexample): one westward channel type of length 1 with a single
downhill template of src_along 1 on a 2 x 2 grid.  At cell (1, 0) the template
displaces the source to (2, 0), OUTSIDE the grid, yet its flattened index
0 * 2 + 2 = 2 is inside [0, 4), so no failure occurs there: the slot of cell
(0, 1) (flat index 2) silently receives a downhill entry and node (1, 0, 0)
receives an uphill entry naming the out-of-grid node (2, 0, 0).  The run only
dies later, at cell (1, 1), with a vector range error — there is no
GraphInconsistent — refuting the claim that an out-of-grid edge makes setup
fail with GraphInconsistent and never silently populates adjacency. -/
theorem setup_nodes_out_of_grid_silent :
    (displace Dir.west 1 0 1 = (2, 0)) ∧
    ¬ (0 ≤ (2 : Int) ∧ (2 : Int) < 2) ∧
    (((setup_nodes cxTypes 2 2).1[2]?.getD []).getD 0 (AdjNode.mk [] [])).downhill
      = [⟨1, 0, 0⟩] ∧
    (((setup_nodes cxTypes 2 2).1[1]?.getD []).getD 0 (AdjNode.mk [] [])).uphill
      = [⟨2, 0, 0⟩] ∧
    (setup_nodes cxTypes 2 2).2 = some SetupErr.atRange := by decide

/-- C6 (counterexample): two entries with equal totals; the entry with the
larger randtag does NOT pop first, the entry with the smaller randtag does,
refuting the claim that the larger tag is preferred. -/
theorem queued_greater_larger_tag_not_popped_first :
    qTagBig.score.cost + qTagBig.score.togo_cost
        = qTagSmall.score.cost + qTagSmall.score.togo_cost ∧
    qTagBig.randtag > qTagSmall.randtag ∧
    popsBefore qTagBig qTagSmall = false ∧
    popsBefore qTagSmall qTagBig = true := by
  refine ⟨rfl, by decide, ?_, ?_⟩ <;>
    norm_num [popsBefore, queuedGreater, qTagBig, qTagSmall]

/-- C6 (amended): for any two priority-queue entries whose total scores are
equal, the ordering induced by QueuedNode::Greater prefers the entry with the
SMALLER random tag: the entry with the smaller randtag is popped first. -/
theorem queued_greater_smaller_tag_first (a b : QueuedNode)
    (hs : a.score.cost + a.score.togo_cost = b.score.cost + b.score.togo_cost)
    (ht : a.randtag < b.randtag) :
    popsBefore a b = true := by
  have hs2 : b.score.cost + b.score.togo_cost = a.score.cost + a.score.togo_cost := hs.symm
  simp only [popsBefore, queuedGreater, if_pos hs2, decide_eq_true_eq]
  exact ht

/-- C6 (witness): the amended theorem applied to the two concrete entries. -/
theorem queued_greater_smaller_tag_first_witness :
    (qTagSmall.score.cost + qTagSmall.score.togo_cost
        = qTagBig.score.cost + qTagBig.score.togo_cost) ∧
    qTagSmall.randtag < qTagBig.randtag ∧
    popsBefore qTagSmall qTagBig = true :=
  ⟨rfl, by decide,
   queued_greater_smaller_tag_first qTagSmall qTagBig rfl (by decide)⟩

/-- C7 (code bug): on the sorted netlist [a (no driver), b (with driver)] the
continue for the driverless net a skips the increment of i, so both a and b
receive udata 0, slot 0 of nets_by_udata is overwritten with b, and slot 1 is
never filled — two distinct nets share a udata value and a record slot,
contradicting the dense distinct id scheme the code itself relies on. -/
theorem setup_nets_udata_collision :
    (setup_nets_ids [⟨"a", false⟩, ⟨"b", true⟩]).1 = [("a", 0), ("b", 0)] ∧
    (setup_nets_ids [⟨"a", false⟩, ⟨"b", true⟩]).2 = [some "b", none] := by decide

/-- C10: if the name is present and its stored string parses, Settings::get
returns the parsed stored value and leaves the settings map unchanged; if the
name is absent it inserts the string form of the default under that name and
returns the default. -/
theorem settings_get_spec {T : Type} (parse : String → Option T) (toStr : T → String)
    (settings : List (String × String)) (name : String) (d : T) :
    (∀ s v, lookupStr name settings = some s → parse s = some v →
      settingsGet parse toStr settings name d = (v, settings)) ∧
    (lookupStr name settings = none →
      settingsGet parse toStr settings name d = (d, (name, toStr d) :: settings)) := by
  constructor
  · intro s v hs hv
    simp [settingsGet, hs, hv]
  · intro hn
    simp [settingsGet, hn]

/-- C10 (witness): Settings::get at string type (lexical_cast of a string to a
string is the identity, std to_string likewise) on a concrete map — a present
key returns the stored value with the map unchanged, an absent key inserts the
default. -/
theorem settings_get_spec_witness :
    (lookupStr "placer" [("placer", "heap")] = some "heap") ∧
    settingsGet some id [("placer", "heap")] "placer" "sa"
      = ("heap", [("placer", "heap")]) ∧
    (lookupStr "router" [("placer", "heap")] = none) ∧
    settingsGet some id [("placer", "heap")] "router" "router2"
      = ("router2", [("router", "router2"), ("placer", "heap")]) :=
  ⟨by decide,
   (settings_get_spec some id [("placer", "heap")] "placer" "sa").1
     "heap" "heap" (by decide) rfl,
   by decide,
   (settings_get_spec some id [("placer", "heap")] "router" "router2").2 (by decide)⟩

theorem lookupBN_isSome_iff (N : Int) :
    ∀ m : BoundNets, (lookupBN N m).isSome = true ↔ N ∈ m.map Prod.fst := by
  intro m
  induction m with
  | nil => simp [lookupBN]
  | cons p rest ih =>
    by_cases h : p.1 = N
    · simp [lookupBN, h]
    · have h2 : ¬ N = p.1 := fun he => h he.symm
      simp [lookupBN, h, h2, ih]

theorem lookupBN_replace_self (net : Int) (v : BoundEntry) :
    ∀ m : BoundNets, lookupBN net (replaceBN net v m) = (lookupBN net m).map (fun _ => v) := by
  intro m
  induction m with
  | nil => rfl
  | cons p rest ih =>
    by_cases h : p.1 = net
    · simp [replaceBN, lookupBN, h]
    · simp [replaceBN, lookupBN, h, ih]

theorem lookupBN_replace_ne (net k : Int) (v : BoundEntry) (hk : ¬ k = net) :
    ∀ m : BoundNets, lookupBN k (replaceBN net v m) = lookupBN k m := by
  intro m
  induction m with
  | nil => rfl
  | cons p rest ih =>
    by_cases h : p.1 = net
    · have h2 : ¬ net = k := fun he => hk he.symm
      have h3 : ¬ p.1 = k := by rw [h]; exact h2
      simp [replaceBN, lookupBN, h, h2, h3, ih]
    · simp [replaceBN, lookupBN, h, ih]

theorem lookupBN_erase_self (net : Int) :
    ∀ m : BoundNets, lookupBN net (eraseBN net m) = none := by
  intro m
  induction m with
  | nil => rfl
  | cons p rest ih =>
    by_cases h : p.1 = net
    · simp [eraseBN, h, ih]
    · simp [eraseBN, lookupBN, h, ih]

theorem lookupBN_erase_ne (net k : Int) (hk : ¬ k = net) :
    ∀ m : BoundNets, lookupBN k (eraseBN net m) = lookupBN k m := by
  intro m
  induction m with
  | nil => rfl
  | cons p rest ih =>
    by_cases h : p.1 = net
    · have h2 : ¬ net = k := fun he => hk he.symm
      have h3 : ¬ p.1 = k := by rw [h]; exact h2
      simp [eraseBN, lookupBN, h, h2, h3, ih]
    · simp [eraseBN, lookupBN, h, ih]

theorem eraseBN_absent (net : Int) :
    ∀ m : BoundNets, lookupBN net m = none → eraseBN net m = m := by
  intro m
  induction m with
  | nil => intro _; rfl
  | cons p rest ih =>
    intro hl
    by_cases h : p.1 = net
    · simp [lookupBN, h] at hl
    · simp only [lookupBN, if_neg h] at hl
      simp [eraseBN, h, ih hl]

theorem replaceBN_absent (net : Int) (v : BoundEntry) :
    ∀ m : BoundNets, lookupBN net m = none → replaceBN net v m = m := by
  intro m
  induction m with
  | nil => intro _; rfl
  | cons p rest ih =>
    intro hl
    by_cases h : p.1 = net
    · simp [lookupBN, h] at hl
    · simp only [lookupBN, if_neg h] at hl
      simp [replaceBN, h, ih hl]

theorem replaceBN_cancel (net : Int) :
    ∀ m : BoundNets, keysNodup m → ∀ e, lookupBN net m = some e → replaceBN net e m = m := by
  intro m
  induction m with
  | nil => intro _ e he; cases he
  | cons p rest ih =>
    intro hk e he
    have hk1 : ¬ p.1 ∈ rest.map Prod.fst := by
      have := (List.nodup_cons.mp hk).1
      simpa [keysNodup] using this
    have hk2 : keysNodup rest := (List.nodup_cons.mp hk).2
    by_cases h : p.1 = net
    · have habs : lookupBN net rest = none := by
        cases hl : lookupBN net rest with
        | none => rfl
        | some e2 =>
          exfalso
          apply hk1
          rw [h]
          exact (lookupBN_isSome_iff net rest).mp (by rw [hl]; rfl)
      simp only [lookupBN, if_pos h, Option.some_inj] at he
      have hp : p = (net, e) := by
        obtain ⟨k, v⟩ := p
        simp only at h he
        rw [h, he]
      simp [replaceBN, h, replaceBN_absent net e rest habs, hp]
    · simp only [lookupBN, if_neg h] at he
      simp [replaceBN, h, ih hk2 e he]

theorem replaceBN_replaceBN (net : Int) (v1 v2 : BoundEntry) :
    ∀ m : BoundNets, replaceBN net v2 (replaceBN net v1 m) = replaceBN net v2 m := by
  intro m
  induction m with
  | nil => rfl
  | cons p rest ih =>
    by_cases h : p.1 = net
    · simp [replaceBN, h, ih]
    · simp [replaceBN, h, ih]

theorem inBoundsB_update (r : RouterData) (g : ChannelNode → PerNodeData) (n : ChannelNode) :
    inBoundsB { r with grid := g } n = inBoundsB r n := rfl

theorem except_bind_ok {ε α β : Type} (a : α) (f : α → Except ε β) :
    Except.bind (Except.ok a) f = f a := rfl

theorem except_bind_error {ε α β : Type} (e : ε) (f : α → Except ε β) :
    Except.bind (Except.error e) f = Except.error e := rfl

theorem except_bindM_ok {ε α β : Type} (a : α) (f : α → Except ε β) :
    (Except.ok a >>= f) = f a := rfl

theorem except_bindM_error {ε α β : Type} (e : ε) (f : α → Except ε β) :
    ((Except.error e : Except ε α) >>= f) = Except.error e := rfl

theorem except_map_ok {ε α β : Type} (f : α → β) (a : α) :
    Except.map f (Except.ok a : Except ε α) = Except.ok (f a) := rfl

theorem except_map_error {ε α β : Type} (f : α → β) (e : ε) :
    Except.map f (Except.error e : Except ε α) = Except.error e := rfl

/-- C3: bind_node_internal increments the per-net use count at the node; on
the first use (key absent, so operator[] creates the entry and the count
becomes 1) it records the passed uphill; on every later bind of the same net
at the node it keeps the stored uphill and asserts it equals the passed one,
failing fast otherwise — so the stored uphill stays the one recorded at first
use across all arcs of the net through the node. -/
theorem bind_node_internal_spec (r : RouterData) (net : Int) (node uphill : ChannelNode)
    (hb : inBoundsB r node = true) :
    (lookupBN net ((r.grid node).bound_nets) = none →
      (bind_node_internal r net node uphill).map
        (fun r2 => lookupBN net ((r2.grid node).bound_nets)) = Except.ok (some (1, uphill))) ∧
    (∀ c u, lookupBN net ((r.grid node).bound_nets) = some (c, u) → 1 ≤ c →
      (u = uphill →
        (bind_node_internal r net node uphill).map
          (fun r2 => lookupBN net ((r2.grid node).bound_nets)) = Except.ok (some (c + 1, u))) ∧
      (¬ u = uphill → bind_node_internal r net node uphill = Except.error ())) := by
  have hnd : r.node_data node = Except.ok (r.grid node) := by
    simp [RouterData.node_data, hb]
  refine ⟨?_, ?_⟩
  · intro hl
    simp [bind_node_internal, hnd, bindBN, hl, except_bindM_ok, except_map_ok,
          setBN, lookupBN]
  · intro c u hl hc
    have hne : ¬ c + 1 = 1 := by omega
    have hc0 : ¬ c = 0 := by omega
    refine ⟨?_, ?_⟩
    · intro hu
      subst hu
      simp [bind_node_internal, hnd, bindBN, hl, hne, hc0, except_bindM_ok,
            except_map_ok, setBN, lookupBN_replace_self]
    · intro hu
      simp [bind_node_internal, hnd, bindBN, hl, hne, hc0, hu, except_bindM_ok,
            except_bindM_error, except_map_error]

/-- C9: a legal bind (node unbound by the net, or bound by it with the same
uphill and a positive count) followed immediately by unbind restores the
bound_nets map of the node exactly: the use count is back and a freshly
created entry is erased. -/
theorem bind_unbind_roundtrip (r : RouterData) (net : Int) (node uphill : ChannelNode)
    (hb : inBoundsB r node = true)
    (hkeys : keysNodup ((r.grid node).bound_nets))
    (hlegal : lookupBN net ((r.grid node).bound_nets) = none ∨
      ∃ c, 1 ≤ c ∧ lookupBN net ((r.grid node).bound_nets) = some (c, uphill)) :
    (Except.bind (bind_node_internal r net node uphill)
        (fun r2 => unbind_node_internal r2 net node)).map
      (fun r3 => (r3.grid node).bound_nets)
      = Except.ok ((r.grid node).bound_nets) := by
  have hnd : r.node_data node = Except.ok (r.grid node) := by
    simp [RouterData.node_data, hb]
  cases hlegal with
  | inl hl =>
    have herase := eraseBN_absent net ((r.grid node).bound_nets) hl
    simp [bind_node_internal, unbind_node_internal, hnd, bindBN, unbindBN, hl,
          except_bindM_ok, except_bind_ok, except_map_ok, RouterData.node_data,
          inBoundsB_update, hb, setBN, lookupBN, eraseBN, herase]
  | inr hex =>
    obtain ⟨c, hc, hl⟩ := hex
    have hne : ¬ c + 1 = 1 := by omega
    have hc0 : ¬ c = 0 := by omega
    have hne0 : ¬ c + 1 - 1 = 0 := by omega
    have hcancel := replaceBN_cancel net ((r.grid node).bound_nets) hkeys (c, uphill) hl
    simp [bind_node_internal, unbind_node_internal, hnd, bindBN, unbindBN, hl, hne,
          hc0, except_bindM_ok, except_bind_ok, except_map_ok, RouterData.node_data,
          inBoundsB_update, hb, setBN, lookupBN_replace_self, hne0,
          replaceBN_replaceBN, hcancel]

/-- C4: with over = |bound_nets| - (width - 1) - [net bound here],
present_node_cost returns exactly 1 when over is at most 0, and
1 + over * curr_cong_weight otherwise. -/
theorem present_node_cost_spec (r : RouterData) (w : PerNodeData) (t N : Int)
    (c : Channel) (hc : atV r.channel_types t = some c) :
    ((w.bound_nets.length : Int) - (c.width - 1) -
        (if N ∈ w.bound_nets.map Prod.fst then 1 else 0) ≤ 0 →
      present_node_cost r w t N = Except.ok 1) ∧
    (0 < (w.bound_nets.length : Int) - (c.width - 1) -
        (if N ∈ w.bound_nets.map Prod.fst then 1 else 0) →
      present_node_cost r w t N = Except.ok
        (1 + (((w.bound_nets.length : Int) - (c.width - 1) -
          (if N ∈ w.bound_nets.map Prod.fst then 1 else 0) : Int) : ℚ) * r.curr_cong_weight)) := by
  by_cases hm : N ∈ w.bound_nets.map Prod.fst
  · have hs : (lookupBN N w.bound_nets).isSome = true := (lookupBN_isSome_iff N w.bound_nets).mpr hm
    constructor
    · intro hle
      rw [if_pos hm] at hle
      simp only [present_node_cost, hc]
      rw [if_pos hs, if_pos hle]
    · intro hlt
      rw [if_pos hm] at hlt
      simp only [present_node_cost, hc, if_pos hm]
      rw [if_pos hs, if_neg (not_le.mpr hlt)]
  · have hs : ¬ (lookupBN N w.bound_nets).isSome = true :=
      fun h => hm ((lookupBN_isSome_iff N w.bound_nets).mp h)
    constructor
    · intro hle
      rw [if_neg hm, sub_zero] at hle
      simp only [present_node_cost, hc]
      rw [if_neg hs, if_pos hle]
    · intro hlt
      rw [if_neg hm, sub_zero] at hlt
      simp only [present_node_cost, hc, if_neg hm, sub_zero]
      rw [if_neg hs, if_neg (not_le.mpr hlt)]

/-- C8: for a net with at least one user, score_node_for_arc returns exactly
base * hist * present / (1 + source_uses) + bias, with base the channel type
cost, present the present congestion cost, bias =
bias_cost_factor * (base / users) * (|dx to centroid| + |dy to centroid|) / hpwl,
and source_uses the use count the net itself holds at the node (0 when not bound). -/
theorem score_node_for_arc_spec (r : RouterData) (net : NetModel) (user : Nat)
    (node : ChannelNode) (nd : PerNetData) (c : Channel) (pc : ℚ)
    (hb : inBoundsB r node = true)
    (hnet : 0 ≤ net.udata) (hnd : r.nets[net.udata.toNat]? = some nd)
    (hc : atV r.channel_types node.type = some c)
    (hpc : present_node_cost r (r.grid node) node.type net.udata = Except.ok pc)
    (husers : 1 ≤ net.usersSize) (hhp : 1 ≤ nd.hpwl) :
    score_node_for_arc r net user node = Except.ok
      (c.cost * (r.grid node).hist_cong_cost * pc /
        (1 + ((((lookupBN net.udata ((r.grid node).bound_nets)).map Prod.fst).getD 0 : Int) : ℚ)) +
       r.cfg.bias_cost_factor * (c.cost / (net.usersSize : ℚ)) *
         ((((node.x - nd.cx).natAbs + (node.y - nd.cy).natAbs : Nat) : ℚ) / (nd.hpwl : ℚ))) := by
  have hnode : r.node_data node = Except.ok (r.grid node) := by
    simp [RouterData.node_data, hb]
  cases hl : lookupBN net.udata ((r.grid node).bound_nets) with
  | none =>
    simp [score_node_for_arc, hnode, hnet, hnd, hc, hpc, hl, except_bindM_ok]
  | some e =>
    simp [score_node_for_arc, hnode, hnet, hnd, hc, hpc, hl, except_bindM_ok]

/-- C5 (amended): get_togo_cost computes the heuristic numerator in float
arithmetic but stores it into an int local — truncating toward zero — and
divides by 1 + source_uses with C++ INTEGER division (truncating toward
zero); the integer quotient is converted back to float on return.  It does
not evaluate the division in real arithmetic. -/
theorem get_togo_cost_amended_spec (r : RouterData) (net : NetModel) (user : Nat)
    (curr sink : ChannelNode) (hb : inBoundsB r curr = true) :
    get_togo_cost r net user curr sink = Except.ok
      ((Int.tdiv (ratTrunc (r.cfg.togo_cost_dx * (((curr.x - sink.x).natAbs : Nat) : ℚ) +
          r.cfg.togo_cost_dy * (((curr.y - sink.y).natAbs : Nat) : ℚ) + r.cfg.togo_cost_adder))
        (1 + (((lookupBN net.udata ((r.grid curr).bound_nets)).map Prod.fst).getD 0 : Int)) : Int) : ℚ) := by
  have hnode : r.node_data curr = Except.ok (r.grid curr) := by
    simp [RouterData.node_data, hb]
  cases hl : lookupBN net.udata ((r.grid curr).bound_nets) with
  | none => simp [get_togo_cost, hnode, hl, except_bindM_ok]
  | some e => simp [get_togo_cost, hnode, hl, except_bindM_ok]

/-- C3 (witness): the bind behavior theorem applied on the concrete state — a
first bind of fresh net 7 at nSrc records the passed uphill with count 1. -/
theorem bind_node_internal_spec_witness :
    inBoundsB exR nSrc = true ∧
    lookupBN 7 ((exR.grid nSrc).bound_nets) = none ∧
    (bind_node_internal exR 7 nSrc nSink).map
      (fun r2 => lookupBN 7 ((r2.grid nSrc).bound_nets)) = Except.ok (some (1, nSink)) :=
  ⟨by decide, by decide,
   (bind_node_internal_spec exR 7 nSrc nSink (by decide)).1 (by decide)⟩

/-- C9 (witness): the roundtrip theorem applied on the concrete state — bind
of fresh net 7 at nSrc followed by unbind restores the bound_nets list. -/
theorem bind_unbind_roundtrip_witness :
    inBoundsB exR nSrc = true ∧
    keysNodup ((exR.grid nSrc).bound_nets) ∧
    lookupBN 7 ((exR.grid nSrc).bound_nets) = none ∧
    (Except.bind (bind_node_internal exR 7 nSrc nSink)
        (fun r2 => unbind_node_internal r2 7 nSrc)).map
      (fun r3 => (r3.grid nSrc).bound_nets)
      = Except.ok ((exR.grid nSrc).bound_nets) :=
  ⟨by decide, by decide, by decide,
   bind_unbind_roundtrip exR 7 nSrc nSink (by decide) (by decide) (Or.inl (by decide))⟩

/-- C4 (witness): the present cost theorem applied on the concrete state — at
nSink, bound by net 0 with a width 1 channel, over = 1 - 0 - 1 = 0, so the
cost is exactly 1. -/
theorem present_node_cost_spec_witness :
    atV exR.channel_types 0 = some exChanEast ∧
    ((((exR.grid nSink).bound_nets.length : Int) - (exChanEast.width - 1) -
        (if (0 : Int) ∈ (exR.grid nSink).bound_nets.map Prod.fst then 1 else 0)) ≤ 0) ∧
    present_node_cost exR (exR.grid nSink) 0 0 = Except.ok 1 :=
  ⟨rfl, by decide,
   (present_node_cost_spec exR (exR.grid nSink) 0 0 exChanEast rfl).1 (by decide)⟩

/-- C8 (witness): the score theorem applied on the concrete state at nSink for
net 0 (1 user, hpwl 1, present cost 1). -/
theorem score_node_for_arc_spec_witness :
    inBoundsB exR nSink = true ∧
    (0 : Int) ≤ (⟨0, 1⟩ : NetModel).udata ∧
    exR.nets[((⟨0, 1⟩ : NetModel).udata).toNat]? = some exNd ∧
    atV exR.channel_types nSink.type = some exChanEast ∧
    present_node_cost exR (exR.grid nSink) nSink.type (⟨0, 1⟩ : NetModel).udata
      = Except.ok 1 ∧
    1 ≤ (⟨0, 1⟩ : NetModel).usersSize ∧
    1 ≤ exNd.hpwl ∧
    score_node_for_arc exR ⟨0, 1⟩ 0 nSink = Except.ok
      (exChanEast.cost * (exR.grid nSink).hist_cong_cost * 1 /
        (1 + ((((lookupBN (⟨0, 1⟩ : NetModel).udata ((exR.grid nSink).bound_nets)).map
            Prod.fst).getD 0 : Int) : ℚ)) +
       exR.cfg.bias_cost_factor * (exChanEast.cost / ((⟨0, 1⟩ : NetModel).usersSize : ℚ)) *
         ((((nSink.x - exNd.cx).natAbs + (nSink.y - exNd.cy).natAbs : Nat) : ℚ) /
           (exNd.hpwl : ℚ))) :=
  ⟨by decide, by decide, by decide, rfl, rfl, by decide, by decide,
   score_node_for_arc_spec exR ⟨0, 1⟩ 0 nSink exNd exChanEast 1
     (by decide) (by decide) (by decide) rfl rfl (by decide) (by decide)⟩

/-- C5 (counterexample): on the concrete state, nSink already carries one use
of net 0, so source_uses = 1; with unit heuristic weights and sink nSrc the
numerator is 1, and the code returns 1 / 2 computed in INTEGER division, that
is 0 — while the claim formula, evaluated in real arithmetic with no
truncation, gives 1/2.  The claim that the quotient is evaluated in real
(float) arithmetic with no intermediate truncation is false. -/
theorem get_togo_cost_integer_division :
    get_togo_cost exR ⟨0, 1⟩ 0 nSink nSrc = Except.ok 0 ∧
    togoSpecReal exR.cfg nSink nSrc 1 = 1 / 2 ∧
    ¬ ((0 : ℚ) = 1 / 2) := by
  have hnode : exR.node_data nSink = Except.ok (exR.grid nSink) := by
    simp [RouterData.node_data, (by decide : inBoundsB exR nSink = true)]
  have hl : lookupBN 0 ((exR.grid nSink).bound_nets) = some (1, nSrc) := by decide
  refine ⟨?_, ?_, by norm_num⟩
  · simp only [get_togo_cost, hnode, except_bindM_ok, hl]
    norm_num [exR, exCfg, nSink, nSrc, ratTrunc]
    decide
  · norm_num [togoSpecReal, exR, exCfg, nSink, nSrc]

/-- C5 (witness): the amended togo theorem applied on the concrete state. -/
theorem get_togo_cost_amended_spec_witness :
    inBoundsB exR nSink = true ∧
    get_togo_cost exR ⟨0, 1⟩ 0 nSink nSrc = Except.ok
      ((Int.tdiv (ratTrunc (exR.cfg.togo_cost_dx * (((nSink.x - nSrc.x).natAbs : Nat) : ℚ) +
          exR.cfg.togo_cost_dy * (((nSink.y - nSrc.y).natAbs : Nat) : ℚ) +
          exR.cfg.togo_cost_adder))
        (1 + (((lookupBN (⟨0, 1⟩ : NetModel).udata ((exR.grid nSink).bound_nets)).map
          Prod.fst).getD 0 : Int)) : Int) : ℚ) :=
  ⟨by decide, get_togo_cost_amended_spec exR ⟨0, 1⟩ 0 nSink nSrc (by decide)⟩

theorem chainFromB_congr (r : RouterData) (g : ChannelNode → PerNodeData)
    (net : Int) (src : ChannelNode) :
    ∀ (path : List ChannelNode) (cursor : ChannelNode),
      (∀ q, q ∈ path → g q = r.grid q) →
      chainFromB { r with grid := g } net src cursor path
        = chainFromB r net src cursor path := by
  intro path
  induction path with
  | nil => intro cursor _; rfl
  | cons p rest ih =>
    intro cursor hg
    have hp : g p = r.grid p := hg p (List.mem_cons_self p rest)
    have hrest : ∀ q, q ∈ rest → g q = r.grid q :=
      fun q hq => hg q (List.mem_cons_of_mem p hq)
    simp only [chainFromB, inBoundsB_update, hp]
    cases hl : lookupBN net ((r.grid p).bound_nets) with
    | none => rfl
    | some e => simp [ih e.2 hrest]

theorem chainFromB_src_not_mem (r : RouterData) (net : Int) (src : ChannelNode) :
    ∀ (path : List ChannelNode) (cursor : ChannelNode),
      chainFromB r net src cursor path = true → ¬ src ∈ path := by
  intro path
  induction path with
  | nil => intro cursor _; simp
  | cons p rest ih =>
    intro cursor hchain
    simp only [chainFromB, Bool.and_eq_true, decide_eq_true_eq] at hchain
    obtain ⟨⟨⟨hcp, hps⟩, hbp⟩, hm⟩ := hchain
    cases hl : lookupBN net ((r.grid p).bound_nets) with
    | none => rw [hl] at hm; cases hm
    | some e =>
      rw [hl] at hm
      intro hmem
      cases List.mem_cons.mp hmem with
      | inl h => exact hps h.symm
      | inr h => exact ih e.2 hm h

theorem unbind_step (r : RouterData) (net : Int) (p : ChannelNode) (e : BoundEntry)
    (hb : inBoundsB r p = true)
    (hl : lookupBN net ((r.grid p).bound_nets) = some e) :
    unbind_node_internal r net p = Except.ok { r with grid := unbindGrid r net p e } := by
  have hnode : r.node_data p = Except.ok (r.grid p) := by
    simp [RouterData.node_data, hb]
  by_cases h0 : e.1 - 1 = 0
  · simp [unbind_node_internal, hnode, unbindBN, hl, h0, except_bindM_ok, unbindGrid]
  · simp [unbind_node_internal, hnode, unbindBN, hl, h0, except_bindM_ok, unbindGrid]

theorem lookupBN_unbind_bn (net : Int) (m : BoundNets) (e : BoundEntry)
    (hl : lookupBN net m = some e) :
    lookupBN net (if e.1 - 1 = 0 then eraseBN net m else replaceBN net (e.1 - 1, e.2) m)
      = decEntry (some e) := by
  by_cases h0 : e.1 - 1 = 0
  · simp [h0, decEntry, lookupBN_erase_self]
  · simp [h0, decEntry, lookupBN_replace_self, hl]

theorem unbindGrid_self (r : RouterData) (net : Int) (p : ChannelNode) (e : BoundEntry)
    (hl : lookupBN net ((r.grid p).bound_nets) = some e) :
    lookupBN net ((unbindGrid r net p e p).bound_nets)
      = decEntry (lookupBN net ((r.grid p).bound_nets)) := by
  rw [hl]
  simp only [unbindGrid, setBN, if_pos rfl]
  exact lookupBN_unbind_bn net ((r.grid p).bound_nets) e hl

theorem unbindGrid_other (r : RouterData) (net : Int) (p : ChannelNode) (e : BoundEntry)
    (q : ChannelNode) (hq : ¬ q = p) :
    unbindGrid r net p e q = r.grid q := by
  simp [unbindGrid, setBN, hq]

theorem ripupWalk_spec (net : Int) (src : ChannelNode) :
    ∀ (path : List ChannelNode) (cursor : ChannelNode) (r : RouterData),
      chainFromB r net src cursor path = true → path.Nodup →
      ∃ g2, ripupWalk net src (path.length + 1) cursor r
          = Except.ok { r with grid := g2 } ∧
        (∀ p, p ∈ path →
          lookupBN net ((g2 p).bound_nets)
            = decEntry (lookupBN net ((r.grid p).bound_nets))) ∧
        (∀ n, ¬ n ∈ path → g2 n = r.grid n) := by
  intro path
  induction path with
  | nil =>
    intro cursor r hchain _
    have hc : cursor = src := by
      simpa [chainFromB] using hchain
    refine ⟨r.grid, ?_, ?_, ?_⟩
    · simp [ripupWalk, hc]
    · intro p hp
      exact absurd hp (List.not_mem_nil p)
    · intro n _
      rfl
  | cons p rest ih =>
    intro cursor r hchain hnodup
    simp only [chainFromB, Bool.and_eq_true, decide_eq_true_eq] at hchain
    obtain ⟨⟨⟨hcp, hps⟩, hbp⟩, hm⟩ := hchain
    subst cursor
    have hnodup2 := List.nodup_cons.mp hnodup
    cases hl : lookupBN net ((r.grid p).bound_nets) with
    | none =>
      rw [hl] at hm
      cases hm
    | some e =>
      rw [hl] at hm
      have hnode : r.node_data p = Except.ok (r.grid p) := by
        simp [RouterData.node_data, hbp]
      have hstep := unbind_step r net p e hbp hl
      have hchain2 : chainFromB { r with grid := unbindGrid r net p e }
          net src e.2 rest = true := by
        rw [chainFromB_congr]
        · exact hm
        · intro q hq
          exact unbindGrid_other r net p e q (fun hqp => hnodup2.1 (hqp ▸ hq))
      obtain ⟨g2, hwalk, hmem, hoff⟩ := ih e.2 _ hchain2 hnodup2.2
      dsimp only at hwalk hmem hoff
      refine ⟨g2, ?_, ?_, ?_⟩
      · show ripupWalk net src (rest.length + 1 + 1) p r = _
        rw [show rest.length + 1 + 1 = Nat.succ (rest.length + 1) from rfl]
        rw [ripupWalk]
        rw [if_neg hps]
        simp only [hnode, except_bindM_ok, hl, hstep]
        exact hwalk
      · intro q hq
        cases List.mem_cons.mp hq with
        | inl hqp =>
          subst hqp
          rw [hoff q hnodup2.1]
          exact unbindGrid_self r net q e hl
        | inr hqr =>
          have hqp : ¬ q = p := fun h => hnodup2.1 (h ▸ hqr)
          have h2 := hmem q hqr
          rw [unbindGrid_other r net p e q hqp] at h2
          exact h2
      · intro n hn
        have hn2 : ¬ n ∈ rest := fun h => hn (List.mem_cons_of_mem p h)
        have hnp : ¬ n = p := fun h => hn (h ▸ List.mem_cons_self p rest)
        rw [hoff n hn2]
        exact unbindGrid_other r net p e n hnp

theorem listModify_get_self {α : Type} (f : α → α) :
    ∀ (l : List α) (i : Nat), (listModify l i f)[i]? = (l[i]?).map f := by
  intro l
  induction l with
  | nil => intro i; cases i <;> rfl
  | cons a rest ih =>
    intro i
    cases i with
    | zero => simp [listModify]
    | succ j => simpa [listModify] using ih j

theorem listModify_get_ne {α : Type} (f : α → α) :
    ∀ (l : List α) (i j : Nat), ¬ j = i → (listModify l i f)[j]? = l[j]? := by
  intro l
  induction l with
  | nil => intro i j _; cases i <;> rfl
  | cons a rest ih =>
    intro i j hij
    cases i with
    | zero =>
      cases j with
      | zero => exact absurd rfl hij
      | succ k => simp [listModify]
    | succ m =>
      cases j with
      | zero => simp [listModify]
      | succ k => simpa [listModify] using ih m k (fun h => hij (by rw [h]))

/-- C1 (amended): rip_up_arc on a routed arc whose stored uphill chain from
the sink is path unbinds each node of the path exactly once — decrementing
its use count for the net and erasing the entry when it reaches zero — leaves
every node off the path untouched, IN PARTICULAR the driver src_node, whose
binding survives because the loop stops when the cursor reaches it, and
clears the arc routed flag while leaving every other net record unchanged. -/
theorem ripup_arc_amended_spec (r : RouterData) (net : Int) (user : Nat)
    (nd : PerNetData) (ad : PerArcData) (path : List ChannelNode)
    (hnet : 0 ≤ net) (hnd : r.nets[net.toNat]? = some nd) (had : nd.arcs[user]? = some ad)
    (hrt : ad.routed = true)
    (hchain : chainFromB r net nd.src_node ad.sink_node path = true)
    (hnodup : path.Nodup) :
    ∃ r2, ripup_arc r (path.length + 1) net user = Except.ok r2 ∧
      (∀ p, p ∈ path →
        lookupBN net ((r2.grid p).bound_nets)
          = decEntry (lookupBN net ((r.grid p).bound_nets))) ∧
      (∀ n, ¬ n ∈ path → r2.grid n = r.grid n) ∧
      r2.grid nd.src_node = r.grid nd.src_node ∧
      (Option.bind r2.nets[net.toNat]? (fun nd2 => nd2.arcs[user]?)).map PerArcData.routed
        = some false ∧
      (∀ i, ¬ i = net.toNat → r2.nets[i]? = r.nets[i]?) := by
  obtain ⟨g2, hwalk, hmem, hoff⟩ :=
    ripupWalk_spec net nd.src_node path ad.sink_node r hchain hnodup
  have hsrc : ¬ nd.src_node ∈ path :=
    chainFromB_src_not_mem r net nd.src_node path ad.sink_node hchain
  refine ⟨setRoutedFalse { r with grid := g2 } net.toNat user, ?_, ?_, ?_, ?_, ?_, ?_⟩
  · simp only [ripup_arc, hnet, if_true, hnd, had]
    rw [if_neg (by simp [hrt])]
    simp only [hwalk, except_bindM_ok]
  · intro p hp
    exact hmem p hp
  · intro n hn
    exact hoff n hn
  · exact hoff nd.src_node hsrc
  · show (Option.bind (listModify r.nets net.toNat _)[net.toNat]?
      (fun nd2 => nd2.arcs[user]?)).map PerArcData.routed = some false
    rw [listModify_get_self, hnd]
    show ((listModify nd.arcs user _)[user]?).map PerArcData.routed = some false
    rw [listModify_get_self, had]
    rfl
  · intro i hi
    show (listModify r.nets net.toNat _)[i]? = r.nets[i]?
    exact listModify_get_ne _ r.nets net.toNat i hi

/-- C1 (counterexample): on the concrete routed state — net 0 routed over
nSrc -> nSink with both nodes bound — rip_up_arc(net 0, arc 0) erases net 0
from the sink but leaves the DRIVER nSrc still holding net 0 in bound_nets:
the while loop stops as soon as the cursor equals the driver and never
unbinds it, refuting the claim that after rip_up_arc no node on the
previously routed path, the driver included, still has the net bound. -/
theorem ripup_arc_driver_stays_bound :
    ((ripup_arc exR 2 0 0).toOption.map
      (fun r2 => (lookupBN 0 ((r2.grid nSrc).bound_nets),
                  lookupBN 0 ((r2.grid nSink).bound_nets))))
      = some (some (1, nSrc), none) := by decide

/-- C1 (witness): the amended theorem applied on the concrete routed state
with path [nSink]. -/
theorem ripup_arc_amended_spec_witness :
    (0 ≤ (0 : Int)) ∧
    exR.nets[(0 : Int).toNat]? = some exNd ∧
    exNd.arcs[0]? = some exAd ∧
    exAd.routed = true ∧
    chainFromB exR 0 exNd.src_node exAd.sink_node [nSink] = true ∧
    ([nSink] : List ChannelNode).Nodup ∧
    (∃ r2, ripup_arc exR (([nSink] : List ChannelNode).length + 1) 0 0 = Except.ok r2 ∧
      (∀ p, p ∈ ([nSink] : List ChannelNode) →
        lookupBN 0 ((r2.grid p).bound_nets)
          = decEntry (lookupBN 0 ((exR.grid p).bound_nets))) ∧
      (∀ n, ¬ n ∈ ([nSink] : List ChannelNode) → r2.grid n = exR.grid n) ∧
      r2.grid exNd.src_node = exR.grid exNd.src_node ∧
      (Option.bind r2.nets[(0 : Int).toNat]? (fun nd2 => nd2.arcs[0]?)).map PerArcData.routed
        = some false ∧
      (∀ i, ¬ i = (0 : Int).toNat → r2.nets[i]? = exR.nets[i]?)) :=
  ⟨by decide, by decide, by decide, by decide, by decide, by decide,
   ripup_arc_amended_spec exR 0 0 exNd exAd [nSink] (by decide) (by decide) (by decide)
     (by decide) (by decide) (by decide)⟩
